import Mathlib

/-!
Verification of the query-processing pipeline of the ai-analytics repository.

The sources under scrutiny are the NestJS gateway (chat.service.ts and friends)
and the internal validation / generation workflow described in the repository's
specification and READMEs.  The gateway is embedded directly from its
TypeScript source; the SQL validator and the generation fallback loop live in
agno-python/app (sql_validator.py, workflow.py), whose files are not part of
the sources at hand, so they are modelled from the specification text.
-/

namespace AiAnalytics

/-! ## SQL validator model

Modelled from the spec: agno-python/app/sql_validator.py is not available, so
the validator is reconstructed from the specification's rule list (normalize,
forbidden keywords, read-only shape, view allow-list, result-size guard) and
the agno-python README's "SQL Rules" section.  The scan is lexical: the SQL
text is lower-cased and cut into alphanumeric/underscore word tokens.
-/

/-- A character belonging to a lexical word token (identifier or number). -/
def isWordChar (c : Char) : Bool := c.isAlphanum || c = '_'

/-- Accumulator-style word splitter: `cur` holds the reversed characters of the
word currently being read. -/
def tokensAux : List Char → List Char → List String
  | cur, [] => if cur = [] then [] else [String.mk cur.reverse]
  | cur, c :: rest =>
    if isWordChar c then tokensAux (c :: cur) rest
    else if cur = [] then tokensAux [] rest
    else String.mk cur.reverse :: tokensAux [] rest

/-- Case-insensitive word tokens of a SQL text. -/
def tokens (s : String) : List String :=
  tokensAux [] (s.data.map Char.toLower)

/-- The fixed mutation/DDL keyword block list of the validator. -/
def forbiddenKeywords : List String :=
  ["insert", "update", "delete", "drop", "alter", "create", "grant", "revoke",
   "truncate", "copy"]

/-- Reserved SQL words, which are not identifiers: the lexical view extraction
never treats a reserved word as a table/view name. -/
def reservedWords : List String :=
  ["select", "with", "from", "join", "where", "group", "by", "order", "limit",
   "on", "as", "and", "or", "having", "union", "left", "right", "inner",
   "outer", "cross", "distinct"]

/-- Lexically extract the identifiers that follow a `from` or `join` token. -/
def extractViews : List String → List String
  | [] => []
  | [_] => []
  | a :: b :: rest =>
    if (a = "from" ∨ a = "join") ∧ b ∉ reservedWords then
      b :: extractViews (b :: rest)
    else
      extractViews (b :: rest)

/-- Numeric parse of a token (digits only), for the `limit` argument. -/
def charsToNat? (cs : List Char) : Option Nat :=
  if cs = [] ∨ ¬ cs.all Char.isDigit then none
  else some (cs.foldl (fun acc c => acc * 10 + (c.toNat - 48)) 0)

/-- Every numeric `limit` argument appearing in the token list. -/
def limitVals : List String → List Nat
  | [] => []
  | [_] => []
  | a :: b :: rest =>
    if a = "limit" then
      match charsToNat? b.data with
      | some k => k :: limitVals (b :: rest)
      | none => limitVals (b :: rest)
    else
      limitVals (b :: rest)

/-- Strip trailing whitespace, then one trailing `;`, then trailing whitespace
again; the argument and the result are reversed character lists. -/
def stripEndRev (rs : List Char) : List Char :=
  let a := rs.dropWhile Char.isWhitespace
  match a with
  | ';' :: rest => rest.dropWhile Char.isWhitespace
  | _ => a

/-- Normalization step of the validator: strip one trailing terminator. -/
def normalizeSql (s : String) : String :=
  String.mk (stripEndRev s.data.reverse).reverse

/-- Rejection reasons of the validator, one per rule. -/
inductive ReasonCode
  | multi_statement
  | forbidden_keyword
  | not_read_only
  | view_not_allowed
  | limit_exceeded
deriving DecidableEq

/-- The verdict record of the validator, as described by the data model:
final_sql iff accepted, reason_code iff rejected. -/
structure ValidationVerdict where
  accepted : Bool
  final_sql : Option String
  reason_code : Option ReasonCode
  rewritten : Bool
deriving DecidableEq

/-- A rejection verdict carrying its reason code. -/
def rejectWith (r : ReasonCode) : ValidationVerdict :=
  ⟨false, none, some r, false⟩

/-- Shape rule: the statement must begin with `select`, or with `with`
eventually followed by `select`. -/
def shapeOk (ts : List String) : Bool :=
  match ts with
  | [] => false
  | t :: rest => t = "select" || (t = "with" && rest.contains "select")

/-- Boolean list inclusion, used for the view allow-list rule. -/
def subsetB (xs ys : List String) : Bool :=
  xs.all fun x => ys.contains x

/-- Modelled from the spec: `validate(rawSql, allowed_views)` of
agno-python/app/sql_validator.py (file not among the sources).  Rules in
strict order, first violation short-circuits: normalize and reject remaining
statement separators; forbidden-keyword scan; read-only shape; view
allow-list on identifiers after `from`/`join`; result-size guard appending
`LIMIT 200` when no limit is present and rejecting a limit above 200. -/
def validate (rawSql : String) (allowed_views : List String) : ValidationVerdict :=
  let sql := normalizeSql rawSql
  if sql.data.any (fun c => c = ';') then rejectWith .multi_statement
  else
    let ts := tokens sql
    if ts.any (fun t => forbiddenKeywords.contains t) then rejectWith .forbidden_keyword
    else if ¬ shapeOk ts then rejectWith .not_read_only
    else if ¬ subsetB (extractViews ts) allowed_views then rejectWith .view_not_allowed
    else
      let ls := limitVals ts
      if ls = [] then ⟨true, some (sql ++ " LIMIT 200"), none, true⟩
      else if ls.any (fun k => 200 < k) then rejectWith .limit_exceeded
      else ⟨true, some sql, none, false⟩

/-- The conjunction of the validator's first four gates (single statement, no
forbidden keyword, read-only shape, allowed views): when it holds, validation
reaches the result-size guard. -/
def preOk (rawSql : String) (av : List String) : Bool :=
  !((normalizeSql rawSql).data.any fun c => c = ';') &&
  !((tokens (normalizeSql rawSql)).any fun t => forbiddenKeywords.contains t) &&
  shapeOk (tokens (normalizeSql rawSql)) &&
  subsetB (extractViews (tokens (normalizeSql rawSql))) av

/-! ## GenerationStage fallback model

Modelled from the spec: agno-python/app/workflow.py is not among the sources.
The spec describes an ordered candidate list (one primary model then N
fallbacks); each candidate is attempted once, a failure immediately moves to
the next candidate, and the loop stops at the first success.  The outcome of
attempting a given model is abstracted as a function from model name to
outcome. -/

/-- Outcome of one model attempt. -/
inductive AttemptOutcome
  | success
  | rate_limited
  | timeout
  | malformed
  | error
deriving DecidableEq

/-- One entry of the fallback trace. -/
structure ModelAttempt where
  model_name : String
  outcome : AttemptOutcome
deriving DecidableEq

/-- Modelled from the spec: the GenerationStage fallback loop over the ordered
candidate list, returning the full attempt trace.  It stops right after the
first successful attempt. -/
def runCandidates (attempt : String → AttemptOutcome) : List String → List ModelAttempt
  | [] => []
  | m :: rest =>
    if attempt m = AttemptOutcome.success then [⟨m, attempt m⟩]
    else ⟨m, attempt m⟩ :: runCandidates attempt rest

/-! ## NestJS gateway (ChatService), embedded from backend-nestjs chat.service.ts

The embedding models JavaScript runtime values that cross the JWT boundary
with an explicit `ClaimValue` type, and the two network effects of the service
(the POST to the internal Agno `/run` endpoint and the in-memory result-store
write) as an explicit effect trace.  `jwt.verify` and the HTTP transport are
oracles passed in as parameters. -/

/-- A decoded JSON claim value.  `null` stands for both absent and null
claims.  Fractional JS numbers are not modelled: no claim under scrutiny
depends on non-integral store ids. -/
inductive ClaimValue
  | str (s : String)
  | num (n : Int)
  | boolean (b : Bool)
  | arr (xs : List ClaimValue)
  | null

/-- Character-list trim, modelling String.prototype.trim. -/
def trimChars (cs : List Char) : List Char :=
  ((cs.dropWhile Char.isWhitespace).reverse.dropWhile Char.isWhitespace).reverse

/-- String trim on both ends. -/
def trimStr (s : String) : String := String.mk (trimChars s.data)

/-- JS Number(string) restricted to integral literals: the empty (trimmed)
string coerces to 0, signed digit strings to their value, anything else to
NaN (`none`). -/
def jsStringToInt (s : String) : Option Int :=
  let t := trimChars s.data
  if t = [] then some 0
  else
    match t with
    | '-' :: ds => (charsToNat? ds).map fun n => -(n : Int)
    | ds => (charsToNat? ds).map fun n => (n : Int)

/-- chat.service.ts toStringClaim: a nonempty trimmed string claim, else
undefined. -/
def toStringClaim : ClaimValue → Option String
  | .str s => if trimStr s = "" then none else some (trimStr s)
  | _ => none

/-- chat.service.ts toNumberClaim: a finite number, or a string coercible to a
finite number. -/
def toNumberClaim : ClaimValue → Option Int
  | .num n => some n
  | .str s => jsStringToInt s
  | _ => none

/-- JS Number() coercion of one array element, `none` standing for NaN. -/
def jsToNumber : ClaimValue → Option Int
  | .num n => some n
  | .str s => jsStringToInt s
  | .boolean b => some (if b then 1 else 0)
  | .null => some 0
  | .arr _ => none

/-- chat.service.ts toNumberArrayClaim: keep the finite numeric entries of an
array claim; a non-array claim is undefined.  The source's
`numbers.length ? numbers : []` returns the filtered list in both branches. -/
def toNumberArrayClaim : ClaimValue → Option (List Int)
  | .arr xs => some (xs.filterMap jsToNumber)
  | _ => none

/-- chat.service.ts toBooleanClaim. -/
def toBooleanClaim : ClaimValue → Option Bool
  | .boolean b => some b
  | .str s =>
    if (String.mk (s.data.map Char.toLower)) = "true" then some true
    else if (String.mk (s.data.map Char.toLower)) = "false" then some false
    else none
  | _ => none

/-- The raw claims of a verified JWT, before conversion. -/
structure DecodedJwt where
  role : ClaimValue := .null
  store_id : ClaimValue := .null
  store_ids : ClaimValue := .null
  is_all_stores : ClaimValue := .null
  org_id : ClaimValue := .null
  user_id : ClaimValue := .null
  sub : ClaimValue := .null

/-- The converted JWT context of chat.service.ts. -/
structure JwtContext where
  role : Option String := none
  store_id : Option Int := none
  store_ids : Option (List Int) := none
  is_all_stores : Option Bool := none
  org_id : Option String := none
  user_id : Option String := none
deriving DecidableEq

/-- JS `a || b` on optional strings: an absent or empty `a` falls through. -/
def jsOrStr (a b : Option String) : Option String :=
  match a with
  | some s => if s = "" then b else some s
  | none => b

/-- JS `a || b || d` collapsed to a defaulted string. -/
def jsOrDefault (a : Option String) (d : String) : String :=
  match a with
  | some s => if s = "" then d else s
  | none => d

/-- The claim conversion block of extractContextFromJwt (lines 200-207). -/
def decodedToContext (d : DecodedJwt) : JwtContext :=
  { role := toStringClaim d.role
    store_id := toNumberClaim d.store_id
    store_ids := toNumberArrayClaim d.store_ids
    is_all_stores := toBooleanClaim d.is_all_stores
    org_id := toStringClaim d.org_id
    user_id := jsOrStr (toStringClaim d.user_id) (toStringClaim d.sub) }

/-- Decidable equality for Except, so gateway runs can be checked by decide. -/
instance exceptDecidableEq {ε α : Type} [DecidableEq ε] [DecidableEq α] :
    DecidableEq (Except ε α) := fun x y =>
  match x, y with
  | .ok a, .ok b => if h : a = b then .isTrue (by rw [h]) else .isFalse (by simp [h])
  | .error a, .error b => if h : a = b then .isTrue (by rw [h]) else .isFalse (by simp [h])
  | .ok _, .error _ => .isFalse (by simp)
  | .error _, .ok _ => .isFalse (by simp)

/-- The exceptions ChatService throws, by NestJS exception class, plus the
HttpException with an explicit `{ detail }` body thrown on downstream
failure. -/
inductive GatewayError
  | badRequest (message : String)
  | unauthorized (message : String)
  | forbidden (message : String)
  | internalServerError (message : String)
  | http (status : Nat) (detail : String)
deriving DecidableEq

/-- The regex `^Bearer\s+(.+)$/i` followed by `.trim()` on the captured
group: case-insensitive `Bearer`, at least one whitespace, a nonempty
remainder, trimmed. -/
def parseBearer (s : String) : Option String :=
  let cs := s.data
  if (cs.take 6).map Char.toLower = "bearer".data then
    match cs.drop 6 with
    | [] => none
    | c :: rest =>
      if c.isWhitespace then
        let tok := (c :: rest).dropWhile Char.isWhitespace
        if tok = [] then none else some (String.mk (trimChars tok))
      else none
  else none

/-- chat.service.ts extractContextFromJwt: empty header yields the empty
context; a malformed header or a token the `verify` oracle rejects raises
UnauthorizedException; a missing secret raises InternalServerErrorException. -/
def extractContextFromJwt (verify : String → Option DecodedJwt) (secret : String)
    (authorizationHeader : String) : Except GatewayError JwtContext :=
  if authorizationHeader = "" then .ok {}
  else
    match parseBearer authorizationHeader with
    | none => .error (.unauthorized "Invalid Authorization header format.")
    | some token =>
      if secret = "" then .error (.internalServerError "JWT_SECRET is not configured.")
      else
        match verify token with
        | some decoded => .ok (decodedToContext decoded)
        | none => .error (.unauthorized "Invalid JWT token.")

/-- chat.service.ts getAllowedViews: the fixed role-to-view mapping. -/
def getAllowedViews (role : String) : List String :=
  if role = "admin" then ["v_payment_scoped", "v_customer_masked", "v_rental_scoped"]
  else if role = "store_manager" then ["v_payment_scoped", "v_rental_scoped"]
  else if role = "marketing" then ["v_customer_masked"]
  else if role = "finance" then ["v_payment_scoped"]
  else []

/-- The global view catalog: the three scoped views created by
agno-python/sql/002_scoped_views.sql. -/
def viewCatalog : List String :=
  ["v_payment_scoped", "v_customer_masked", "v_rental_scoped"]

/-- The roles the DTO accepts. -/
def validRoles : List String := ["admin", "store_manager", "marketing", "finance"]

/-- The roles that require store scoping in resolveStoreId. -/
def scopedRoles : List String := ["store_manager", "marketing", "finance"]

/-- chat.service.ts resolveStoreId, embedded branch by branch. -/
def resolveStoreId (role : String) (requestedStoreId : Int) (jwtContext : JwtContext) :
    Except GatewayError Int :=
  if ¬ (jwtContext.role.isSome ∨ jwtContext.user_id.isSome ∨ jwtContext.store_ids.isSome) then
    let fallbackStore := jwtContext.store_id.getD requestedStoreId
    if role ∈ scopedRoles ∧ fallbackStore ≤ 0 then
      .error (.badRequest "store_id is required for this role.")
    else .ok fallbackStore
  else
    if jwtContext.is_all_stores = some true ∨ role = "admin" then
      .ok (if 0 < requestedStoreId then requestedStoreId else jwtContext.store_id.getD 0)
    else
      let allowedStoreIds := jwtContext.store_ids.getD []
      if allowedStoreIds = [] then
        .error (.forbidden "No store access configured for this user.")
      else if 0 < requestedStoreId ∧ requestedStoreId ∉ allowedStoreIds then
        .error (.forbidden "Requested store is outside your access scope.")
      else .ok (if 0 < requestedStoreId then requestedStoreId else allowedStoreIds.headD 0)

/-- A downstream (axios) error: an optional HTTP error response and an
optional transport error code. -/
structure AxiosResponse where
  status : Nat
  detail : Option String
deriving DecidableEq

structure DownstreamError where
  response : Option AxiosResponse := none
  code : Option String := none
deriving DecidableEq

/-- Outcome of one POST to the internal Agno service. -/
inductive PostOutcome
  | ok (data : String)
  | err (e : DownstreamError)
deriving DecidableEq

/-- chat.service.ts postWithSingleRetry retry predicate. -/
def retryable (e : DownstreamError) : Bool :=
  e.code == some "ECONNABORTED" || e.code == some "ECONNRESET" ||
  e.code == some "ENOTFOUND" || e.response.isNone ||
  (match e.response with
   | some r => decide (500 ≤ r.status) && decide (r.status ≤ 599)
   | none => false)

/-- chat.service.ts postWithSingleRetry: first call, one retry on retryable
errors; returns the result and the number of POSTs performed. -/
def postWithSingleRetry (p1 p2 : PostOutcome) : Except DownstreamError String × Nat :=
  match p1 with
  | .ok d => (.ok d, 1)
  | .err e =>
    if retryable e then
      match p2 with
      | .ok d => (.ok d, 2)
      | .err e2 => (.error e2, 2)
    else (.error e, 1)

/-- The catch block of forwardToAgno (lines 136-147): an error response maps
to its own status (a JS-falsy status 0 maps to 502) with the downstream
detail or a fixed default; `ECONNABORTED` without response maps to a 504
timeout; anything else maps to a 502. -/
def mapAgnoError (e : DownstreamError) : Nat × String :=
  match e.response with
  | some r => (if r.status = 0 then 502 else r.status, r.detail.getD "Agno service error.")
  | none =>
    if e.code = some "ECONNABORTED" then (504, "Agno service timeout.")
    else (502, "Failed to reach Agno service.")

/-- The validated request body of POST /api/ask (chat.dto.ts). -/
structure ChatRequestBody where
  question : String
  role : Option String := none
  store_id : Option Int := none
  conversation_id : Option String := none
  org_id : Option String := none
  user_id : Option String := none
deriving DecidableEq

/-- The security context forwarded to the internal service. -/
structure UserContext where
  role : String
  store_id : Int
  allowed_views : List String
deriving DecidableEq

/-- The body of the internal POST /run request. -/
structure AgnoRequestBody where
  conversation_id : String
  question : String
  org_id : String
  user_id : String
  user_context : UserContext
deriving DecidableEq

/-- The externally visible effects of one forwardToAgno call: POSTs to the
internal service and writes to the in-memory result store. -/
inductive GatewayEffect
  | post (request : AgnoRequestBody)
  | storeSet (conversation_id : String)
deriving DecidableEq

/-- The payload returned to the caller on success: the downstream data plus
the conversation id (the source's object spread). -/
structure AgnoPayload where
  data : String
  conversation_id : String
deriving DecidableEq

/-- Configuration read by ChatService, plus the uuid the service would mint
for a request without conversation_id. -/
structure GatewayConfig where
  internalToken : String
  jwtSecret : String
  freshUuid : String

/-- chat.service.ts forwardToAgno, embedded end to end.  `verify` is the
jwt.verify oracle, `p1`/`p2` the outcomes of the (at most two) POSTs to the
internal service.  The result carries the returned value or thrown exception
together with the ordered effect trace. -/
def forwardToAgno (cfg : GatewayConfig) (verify : String → Option DecodedJwt)
    (p1 p2 : PostOutcome) (body : ChatRequestBody) (authorizationHeader : String) :
    Except GatewayError AgnoPayload × List GatewayEffect :=
  if cfg.internalToken = "" then
    (.error (.internalServerError "INTERNAL_TOKEN is not configured."), [])
  else
    match extractContextFromJwt verify cfg.jwtSecret authorizationHeader with
    | .error e => (.error e, [])
    | .ok jwtContext =>
      match jsOrStr jwtContext.role body.role with
      | none => (.error (.badRequest "role is required (from JWT or request body)."), [])
      | some role =>
        if role = "" then
          (.error (.badRequest "role is required (from JWT or request body)."), [])
        else if role ∉ validRoles then
          (.error (.badRequest "Invalid role in JWT/body."), [])
        else
          match resolveStoreId role (body.store_id.getD 0) jwtContext with
          | .error e => (.error e, [])
          | .ok storeId =>
            let conversationId := jsOrDefault body.conversation_id cfg.freshUuid
            let requestBody : AgnoRequestBody :=
              { conversation_id := conversationId
                question := body.question
                org_id := jsOrDefault jwtContext.org_id (jsOrDefault body.org_id "default-org")
                user_id := jsOrDefault jwtContext.user_id (jsOrDefault body.user_id "default-user")
                user_context := ⟨role, storeId, getAllowedViews role⟩ }
            match (postWithSingleRetry p1 p2).1 with
            | .ok d =>
              (.ok ⟨d, conversationId⟩,
                List.replicate (postWithSingleRetry p1 p2).2 (.post requestBody) ++
                  [.storeSet conversationId])
            | .error e =>
              (.error (.http (mapAgnoError e).1 (mapAgnoError e).2),
                List.replicate (postWithSingleRetry p1 p2).2 (.post requestBody))

/-! Concrete fixtures used to exercise the gateway embedding on closed runs. -/

/-- A gateway configuration with both secrets set. -/
def cfgFix : GatewayConfig := ⟨"itok", "sec", "uuid-1"⟩

/-- A verify oracle accepting exactly the token "tok" with the given claims. -/
def verifyFix (d : DecodedJwt) : String → Option DecodedJwt :=
  fun t => if t = "tok" then some d else none

/-- Claims of a store manager whose JWT grants all-stores access. -/
def djAllStores : DecodedJwt :=
  { role := .str "store_manager", is_all_stores := .boolean true }

/-- Claims carrying an empty store_ids array. -/
def djNoStores : DecodedJwt := { store_ids := .arr [] }

/-- Claims carrying only an admin role. -/
def djAdmin : DecodedJwt := { role := .str "admin" }

/-- A minimal request body. -/
def bodyFix : ChatRequestBody := { question := "count payments" }

/-- The internal request forwarded for djAllStores and bodyFix: note the
store_id of 0. -/
def rbAllStores : AgnoRequestBody :=
  ⟨"uuid-1", "count payments", "default-org", "default-user",
    ⟨"store_manager", 0, ["v_payment_scoped", "v_rental_scoped"]⟩⟩

example :
    validate "SELECT amount FROM v_payment_scoped" ["v_payment_scoped"] =
      ⟨true, some "SELECT amount FROM v_payment_scoped LIMIT 200", none, true⟩ := by
  decide

example : validate "DELETE FROM payment" [] = rejectWith .forbidden_keyword := by decide

example :
    validate "SELECT * FROM customer" ["v_customer_masked"] =
      rejectWith .view_not_allowed := by decide

example :
    validate "SELECT a FROM t; SELECT b FROM t2" ["t", "t2"] =
      rejectWith .multi_statement := by decide

example :
    validate "SELECT count(*) FROM v_rental_scoped LIMIT 5000" ["v_rental_scoped"] =
      rejectWith .limit_exceeded := by decide

example :
    validate "WITH x AS (SELECT a FROM v_rental_scoped) SELECT a FROM x LIMIT 10"
      ["v_rental_scoped", "x"] = ⟨true,
        some "WITH x AS (SELECT a FROM v_rental_scoped) SELECT a FROM x LIMIT 10",
        none, false⟩ := by decide

example :
    validate "SELECT amount FROM v_payment_scoped ; " ["v_payment_scoped"] =
      ⟨true, some "SELECT amount FROM v_payment_scoped LIMIT 200", none, true⟩ := by
  decide

/-! ### Lexical lemmas about the token scan -/

theorem tokensAux_append_sep (c : Char) (hc : isWordChar c = false) (ys : List Char) :
    ∀ (xs : List Char) (cur : List Char),
      tokensAux cur (xs ++ c :: ys) = tokensAux cur xs ++ tokensAux [] ys := by
  intro xs
  induction xs with
  | nil =>
    intro cur
    by_cases hcur : cur = []
    · subst hcur
      simp [tokensAux, hc]
    · simp [tokensAux, hc, hcur]
  | cons x xs ih =>
    intro cur
    by_cases hx : isWordChar x = true
    · simp [tokensAux, hx, ih]
    · rw [Bool.not_eq_true] at hx
      by_cases hcur : cur = []
      · subst hcur
        simp [tokensAux, hx, ih]
      · simp [tokensAux, hx, hcur, ih]

theorem tokens_append_limit (s : String) :
    tokens (s ++ " LIMIT 200") = tokens s ++ ["limit", "200"] := by
  show tokensAux [] (((s ++ " LIMIT 200").data).map Char.toLower) = _
  have hdata : (s ++ " LIMIT 200").data = s.data ++ " LIMIT 200".data := rfl
  rw [hdata, List.map_append]
  have hlim : (" LIMIT 200".data).map Char.toLower = ' ' :: "limit 200".data := by decide
  rw [hlim, tokensAux_append_sep ' ' (by decide) ("limit 200".data) (s.data.map Char.toLower) []]
  have : tokensAux [] "limit 200".data = ["limit", "200"] := by decide
  rw [this]
  rfl

theorem extractViews_append_limit :
    ∀ ts : List String, extractViews (ts ++ ["limit", "200"]) = extractViews ts
  | [] => by decide
  | [a] => by
    show extractViews (a :: "limit" :: ["200"]) = extractViews [a]
    have h : ¬ ((a = "from" ∨ a = "join") ∧ "limit" ∉ reservedWords) := by
      rintro ⟨-, hmem⟩
      exact hmem (by decide)
    simp only [extractViews, if_neg h]
    decide
  | a :: b :: rest => by
    have ih := extractViews_append_limit (b :: rest)
    show extractViews (a :: b :: (rest ++ ["limit", "200"])) = extractViews (a :: b :: rest)
    have hback : b :: (rest ++ ["limit", "200"]) = (b :: rest) ++ ["limit", "200"] := rfl
    simp only [extractViews, hback, ih]

theorem limitVals_append_limit :
    ∀ ts : List String, limitVals (ts ++ ["limit", "200"]) = limitVals ts ++ [200]
  | [] => by decide
  | [a] => by
    show limitVals (a :: "limit" :: ["200"]) = limitVals [a] ++ [200]
    by_cases h : a = "limit"
    · subst h
      decide
    · simp only [limitVals, if_neg h]
      decide
  | a :: b :: rest => by
    have ih := limitVals_append_limit (b :: rest)
    show limitVals (a :: b :: (rest ++ ["limit", "200"])) = limitVals (a :: b :: rest) ++ [200]
    have hback : b :: (rest ++ ["limit", "200"]) = (b :: rest) ++ ["limit", "200"] := rfl
    simp only [limitVals, hback, ih]
    by_cases h : a = "limit"
    · simp only [if_pos h]
      cases hb : charsToNat? b.data <;> simp [hb]
    · simp [if_neg h]

theorem shapeOk_append (ts l : List String) (h : shapeOk ts = true) :
    shapeOk (ts ++ l) = true := by
  match ts with
  | [] => exact absurd h (by decide)
  | t :: rest =>
    show shapeOk (t :: (rest ++ l)) = true
    rw [shapeOk] at h ⊢
    rcases Bool.or_eq_true_iff.mp h with hsel | hwith
    · exact Bool.or_eq_true_iff.mpr (Or.inl hsel)
    · rcases Bool.and_eq_true_iff.mp hwith with ⟨hw, hc⟩
      refine Bool.or_eq_true_iff.mpr (Or.inr (Bool.and_eq_true_iff.mpr ⟨hw, ?_⟩))
      have : "select" ∈ rest := by simpa using hc
      simpa using List.mem_append_left l this

/-! ### Normalization lemmas -/

theorem dropWhile_head_false (p : Char → Bool) :
    ∀ (l : List Char) {c : Char} {cs : List Char}, l.dropWhile p = c :: cs → p c = false := by
  intro l
  induction l with
  | nil => intro c cs h; simp at h
  | cons a l ih =>
    intro c cs h
    rw [List.dropWhile_cons] at h
    by_cases ha : p a = true
    · exact ih (by simpa [ha] using h)
    · rw [Bool.not_eq_true] at ha
      rw [if_neg (by simp [ha])] at h
      cases h
      exact ha

theorem stripEndRev_fix (rs : List Char)
    (hhead : ∀ c cs, rs = c :: cs → c.isWhitespace = false)
    (hsemi : ';' ∉ rs) : stripEndRev rs = rs := by
  match rs with
  | [] => rfl
  | c :: cs =>
    have hc : c.isWhitespace = false := hhead c cs rfl
    have hcsemi : c ≠ ';' := fun h => hsemi (h ▸ List.mem_cons_self c cs)
    have hdrop : (c :: cs).dropWhile Char.isWhitespace = c :: cs := by
      rw [List.dropWhile_cons, if_neg (by simp [hc])]
    show stripEndRev (c :: cs) = c :: cs
    simp only [stripEndRev, hdrop]
    split
    · next rest heq =>
      injection heq with h1 h2
      exact absurd h1 hcsemi
    · rfl

theorem stripEndRev_head_not_ws (rs : List Char) :
    ∀ c cs, stripEndRev rs = c :: cs → c.isWhitespace = false := by
  intro c cs h
  simp only [stripEndRev] at h
  split at h
  · exact dropWhile_head_false _ _ h
  · exact dropWhile_head_false _ _ h

theorem stripEndRev_subset (rs : List Char) : ∀ a ∈ stripEndRev rs, a ∈ rs := by
  intro a ha
  simp only [stripEndRev] at ha
  split at ha
  · next rest heq =>
    have h1 : a ∈ rs.dropWhile Char.isWhitespace := by
      rw [heq]
      exact List.mem_cons_of_mem _ (List.dropWhile_subset _ ha)
    exact List.dropWhile_subset _ h1
  · exact List.dropWhile_subset _ ha

theorem normalizeSql_fix (s : String)
    (hhead : ∀ c cs, s.data.reverse = c :: cs → c.isWhitespace = false)
    (hsemi : ';' ∉ s.data) : normalizeSql s = s := by
  rw [normalizeSql, stripEndRev_fix s.data.reverse hhead (by simpa using hsemi)]
  rw [List.reverse_reverse]

theorem normalizeSql_data (s : String) :
    (normalizeSql s).data = (stripEndRev s.data.reverse).reverse := rfl

theorem normalizeSql_idem (raw : String) (hsemi : ';' ∉ (normalizeSql raw).data) :
    normalizeSql (normalizeSql raw) = normalizeSql raw := by
  apply normalizeSql_fix
  · intro c cs h
    rw [normalizeSql_data, List.reverse_reverse] at h
    exact stripEndRev_head_not_ws _ c cs h
  · exact hsemi

/-! ## Claim C3: totality of validate -/

/-- C3: validate is a total function (it is a Lean def, hence never throws),
and for every input it returns exactly one of an accepted verdict (final_sql
present, no reason_code) or a rejection carrying a reason_code (no
final_sql). -/
theorem validate_totality (raw : String) (av : List String) :
    ((validate raw av).accepted = true ∧ (validate raw av).final_sql.isSome = true ∧
      (validate raw av).reason_code = none) ∨
    ((validate raw av).accepted = false ∧ (validate raw av).final_sql = none ∧
      (validate raw av).reason_code.isSome = true) := by
  simp only [validate]
  split_ifs <;> simp [rejectWith]

/-! ## Claim C1: scope soundness -/

/-- C1: for every raw SQL text and allowed_views set, if validate accepts,
then every table/view identifier appearing after a `from` or `join` token in
the final_sql is a member of the supplied allowed_views. -/
theorem validate_scope_soundness (raw : String) (av : List String) (f : String)
    (hacc : (validate raw av).accepted = true)
    (hfin : (validate raw av).final_sql = some f) :
    subsetB (extractViews (tokens f)) av = true := by
  simp only [validate] at hacc hfin
  split_ifs at hacc hfin with h1 h2 h3 h4 h5 h6 <;>
    try simp [rejectWith] at hacc
  · obtain rfl := Option.some.inj hfin
    rw [tokens_append_limit, extractViews_append_limit]
    exact h4
  · obtain rfl := Option.some.inj hfin
    exact h4

/-- Witness for C1 at spec Scenario A. -/
theorem validate_scope_soundness_witness :
    subsetB (extractViews (tokens "SELECT amount FROM v_payment_scoped LIMIT 200"))
      ["v_payment_scoped"] = true :=
  validate_scope_soundness "SELECT amount FROM v_payment_scoped" ["v_payment_scoped"]
    "SELECT amount FROM v_payment_scoped LIMIT 200" (by decide) (by decide)

/-! ## Claim C5: allowed views stay inside the fixed catalog -/

/-- C5: for every role string, the allowed_views list the gateway attaches is
a subset of the fixed global view catalog, and any role outside the four
known roles maps to the empty list. -/
theorem getAllowedViews_in_catalog (role : String) :
    (∀ v ∈ getAllowedViews role, v ∈ viewCatalog) ∧
    (role ∉ validRoles → getAllowedViews role = []) := by
  constructor
  · intro v hv
    rw [getAllowedViews] at hv
    split_ifs at hv <;> first
      | (simp_all [viewCatalog]; tauto)
      | simp_all [viewCatalog]
  · intro hnot
    rw [getAllowedViews]
    rw [validRoles] at hnot
    simp only [List.mem_cons, List.not_mem_nil, or_false] at hnot
    push_neg at hnot
    obtain ⟨h1, h2, h3, h4⟩ := hnot
    simp [h1, h2, h3, h4]

/-- Witness for C5: a known role's views land in the catalog, an unknown role
gets no views. -/
theorem getAllowedViews_in_catalog_witness :
    "v_customer_masked" ∈ viewCatalog ∧ getAllowedViews "intern" = [] :=
  ⟨(getAllowedViews_in_catalog "marketing").1 "v_customer_masked" (by decide),
   (getAllowedViews_in_catalog "intern").2 (by decide)⟩

/-! ## Claims C2 and C4: the result-size guard and idempotence -/

theorem normalizeSql_append_limit (s : String) (hsemi : ';' ∉ s.data) :
    normalizeSql (s ++ " LIMIT 200") = s ++ " LIMIT 200" := by
  have hdata : (s ++ " LIMIT 200").data = s.data ++ " LIMIT 200".data := rfl
  apply normalizeSql_fix
  · intro c cs h
    rw [hdata, List.reverse_append] at h
    have hrev : (" LIMIT 200".data).reverse = '0' :: "02 TIMIL ".data := by decide
    rw [hrev, List.cons_append] at h
    injection h with hc _
    rw [← hc]
    decide
  · rw [hdata]
    intro hm
    rcases List.mem_append.mp hm with hm1 | hm2
    · exact hsemi hm1
    · exact absurd hm2 (by decide)

theorem not_mem_of_any_semi_false (s : String)
    (h : (s.data.any fun c => c = ';') = false) : ';' ∉ s.data := by
  intro hm
  have : (s.data.any fun c => c = ';') = true := List.any_eq_true.mpr ⟨';', hm, by simp⟩
  rw [h] at this
  cases this

/-- C4: validation is idempotent on its own output: re-validating an accepted
final_sql with the same allowed_views yields the same text, accepted, not
rewritten. -/
theorem validate_idempotent (raw : String) (av : List String) (f : String)
    (hacc : (validate raw av).accepted = true)
    (hfin : (validate raw av).final_sql = some f) :
    validate f av = ⟨true, some f, none, false⟩ := by
  simp only [validate] at hacc hfin
  split_ifs at hacc hfin with h1 h2 h3 h4 h5 h6 <;> try simp [rejectWith] at hacc
  · -- the rewrite branch: f is the normalized input with LIMIT 200 appended
    obtain rfl := Option.some.inj hfin
    rw [Bool.not_eq_true] at h1 h2
    have hsemi : ';' ∉ (normalizeSql raw).data := not_mem_of_any_semi_false _ h1
    have hnorm := normalizeSql_append_limit (normalizeSql raw) hsemi
    have hdata : (normalizeSql raw ++ " LIMIT 200").data
        = (normalizeSql raw).data ++ " LIMIT 200".data := rfl
    have hg1 : ¬(((normalizeSql raw ++ " LIMIT 200").data.any fun c => c = ';') = true) := by
      rw [hdata, List.any_append, h1]
      decide
    have hg2 : ¬(((tokens (normalizeSql raw) ++ ["limit", "200"]).any
        fun t => forbiddenKeywords.contains t) = true) := by
      rw [List.any_append, h2]
      decide
    simp only [validate, hnorm]
    rw [tokens_append_limit, extractViews_append_limit, limitVals_append_limit, h5,
      List.nil_append]
    rw [if_neg hg1, if_neg hg2, if_neg (not_not_intro (shapeOk_append _ _ h3)),
      if_neg (not_not_intro h4), if_neg (by decide), if_neg (by decide)]
  · -- the no-rewrite branch: f is the normalized input itself
    obtain rfl := Option.some.inj hfin
    have hsemi : ';' ∉ (normalizeSql raw).data :=
      not_mem_of_any_semi_false _ (Bool.not_eq_true _ ▸ h1)
    have hnorm := normalizeSql_idem raw hsemi
    simp only [validate, hnorm]
    rw [if_neg h1, if_neg h2, if_neg (not_not_intro h3), if_neg (not_not_intro h4),
      if_neg h5, if_neg h6]

/-- Witness for C4 at spec Scenario A's final_sql. -/
theorem validate_idempotent_witness :
    validate "SELECT amount FROM v_payment_scoped LIMIT 200" ["v_payment_scoped"] =
      ⟨true, some "SELECT amount FROM v_payment_scoped LIMIT 200", none, false⟩ :=
  validate_idempotent "SELECT amount FROM v_payment_scoped" ["v_payment_scoped"]
    "SELECT amount FROM v_payment_scoped LIMIT 200" (by decide) (by decide)

/-- C2 (amended): every accepted final_sql contains a limit clause and all its
limit values are at most 200; when the input passes the four earlier gates and
has no limit, the verdict is accepted with LIMIT 200 appended and
rewritten=true; when the input has a limit above 200 the verdict is never
accepted, and its reason_code is limit_exceeded whenever the earlier gates
pass. -/
theorem validate_limit_guard (raw : String) (av : List String) :
    (∀ f, (validate raw av).accepted = true → (validate raw av).final_sql = some f →
      limitVals (tokens f) ≠ [] ∧ ∀ k ∈ limitVals (tokens f), k ≤ 200) ∧
    (preOk raw av = true → limitVals (tokens (normalizeSql raw)) = [] →
      validate raw av = ⟨true, some (normalizeSql raw ++ " LIMIT 200"), none, true⟩) ∧
    ((∃ k ∈ limitVals (tokens (normalizeSql raw)), 200 < k) →
      (validate raw av).accepted = false ∧
      (preOk raw av = true →
        (validate raw av).reason_code = some ReasonCode.limit_exceeded)) := by
  refine ⟨?_, ?_, ?_⟩
  · intro f hacc hfin
    simp only [validate] at hacc hfin
    split_ifs at hacc hfin with h1 h2 h3 h4 h5 h6 <;> try simp [rejectWith] at hacc
    · obtain rfl := Option.some.inj hfin
      rw [tokens_append_limit, limitVals_append_limit, h5, List.nil_append]
      exact ⟨by decide, by decide⟩
    · obtain rfl := Option.some.inj hfin
      refine ⟨h5, ?_⟩
      intro k hk
      by_contra hgt
      push_neg at hgt
      exact h6 (List.any_eq_true.mpr ⟨k, hk, by simpa using hgt⟩)
  · intro hpre hnl
    simp only [preOk, Bool.and_eq_true, Bool.not_eq_true'] at hpre
    obtain ⟨⟨⟨hp1, hp2⟩, hp3⟩, hp4⟩ := hpre
    simp only [validate]
    rw [if_neg (by rw [hp1]; decide), if_neg (by rw [hp2]; decide), if_neg (not_not_intro hp3),
      if_neg (not_not_intro hp4), if_pos hnl]
  · rintro ⟨k, hk, hk200⟩
    constructor
    · simp only [validate]
      split_ifs with h1 h2 h3 h4 h5 h6 <;> try rfl
      · rw [h5] at hk
        cases hk
      · exact absurd (List.any_eq_true.mpr ⟨k, hk, by simpa using hk200⟩) h6
    · intro hpre
      simp only [preOk, Bool.and_eq_true, Bool.not_eq_true'] at hpre
      obtain ⟨⟨⟨hp1, hp2⟩, hp3⟩, hp4⟩ := hpre
      have hne : ¬(limitVals (tokens (normalizeSql raw)) = []) := by
        intro h0
        rw [h0] at hk
        cases hk
      simp only [validate]
      rw [if_neg (by rw [hp1]; decide), if_neg (by rw [hp2]; decide), if_neg (not_not_intro hp3),
        if_neg (not_not_intro hp4), if_neg hne,
        if_pos (List.any_eq_true.mpr ⟨k, hk, by simpa using hk200⟩)]
      rfl

/-- Counterexample to C2 as stated: a no-limit input whose verdict is not an
accepted rewrite (the forbidden-keyword gate fires first), and an over-limit
input whose rejection reason is not limit_exceeded. -/
theorem validate_limit_guard_counterexample :
    limitVals (tokens (normalizeSql "DELETE FROM payment")) = [] ∧
    (validate "DELETE FROM payment" []).accepted = false ∧
    (validate "DELETE FROM payment" []).rewritten = false ∧
    (∃ k ∈ limitVals (tokens (normalizeSql "DELETE FROM payment LIMIT 500")), 200 < k) ∧
    (validate "DELETE FROM payment LIMIT 500" ["payment"]).reason_code =
      some ReasonCode.forbidden_keyword ∧
    ReasonCode.forbidden_keyword ≠ ReasonCode.limit_exceeded := by
  refine ⟨by decide, by decide, by decide, ⟨500, by decide, by decide⟩, by decide, by decide⟩

/-- Witness for C2 (amended) at spec Scenarios A and F. -/
theorem validate_limit_guard_witness :
    validate "SELECT amount FROM v_payment_scoped" ["v_payment_scoped"] =
      ⟨true, some (normalizeSql "SELECT amount FROM v_payment_scoped" ++ " LIMIT 200"),
        none, true⟩ ∧
    (validate "SELECT count(*) FROM v_rental_scoped LIMIT 5000" ["v_rental_scoped"]).reason_code
      = some ReasonCode.limit_exceeded :=
  ⟨(validate_limit_guard "SELECT amount FROM v_payment_scoped" ["v_payment_scoped"]).2.1
      (by decide) (by decide),
   ((validate_limit_guard "SELECT count(*) FROM v_rental_scoped LIMIT 5000"
      ["v_rental_scoped"]).2.2 ⟨5000, by decide, by decide⟩).2 (by decide)⟩

/-! ## Claim C8: fallback monotonicity of the generation stage -/

/-- C8: over an ordered candidate list, no model is attempted after the first
successful attempt (every attempt except the last one of the trace has a
non-success outcome), and the number of attempts never exceeds the configured
candidate count. -/
theorem runCandidates_fallback_monotone (attempt : String → AttemptOutcome)
    (candidates : List String) :
    (runCandidates attempt candidates).length ≤ candidates.length ∧
    ∀ i a, i + 1 < (runCandidates attempt candidates).length →
      (runCandidates attempt candidates).get? i = some a →
      a.outcome ≠ AttemptOutcome.success := by
  induction candidates with
  | nil =>
    refine ⟨Nat.le_refl 0, fun i a h _ => absurd h ?_⟩
    simp [runCandidates]
  | cons m rest ih =>
    by_cases hm : attempt m = AttemptOutcome.success
    · refine ⟨?_, ?_⟩
      · simp [runCandidates, hm]
      · intro i a h
        rw [runCandidates, if_pos hm] at h
        simp at h
    · refine ⟨?_, ?_⟩
      · simp only [runCandidates, if_neg hm, List.length_cons]
        exact Nat.succ_le_succ ih.1
      · intro i a h hget
        rw [runCandidates, if_neg hm] at h hget
        match i with
        | 0 =>
          rw [List.get?_cons_zero] at hget
          cases hget
          simpa using hm
        | Nat.succ j =>
          rw [List.get?_cons_succ] at hget
          have hj : j + 1 < (runCandidates attempt rest).length := by
            simpa using h
          exact ih.2 j a hj hget

/-- Witness for C8: three candidates of which the second succeeds. -/
theorem runCandidates_fallback_monotone_witness :
    (runCandidates
      (fun m => if m = "m2" then AttemptOutcome.success else AttemptOutcome.timeout)
      ["m1", "m2", "m3"]).length ≤ 3 ∧
    (⟨"m1", AttemptOutcome.timeout⟩ : ModelAttempt).outcome ≠ AttemptOutcome.success :=
  ⟨(runCandidates_fallback_monotone
      (fun m => if m = "m2" then AttemptOutcome.success else AttemptOutcome.timeout)
      ["m1", "m2", "m3"]).1,
   (runCandidates_fallback_monotone
      (fun m => if m = "m2" then AttemptOutcome.success else AttemptOutcome.timeout)
      ["m1", "m2", "m3"]).2 0 ⟨"m1", AttemptOutcome.timeout⟩ (by decide) (by decide)⟩

/-! ## Gateway lemmas -/

theorem toStringClaim_ne_empty (v : ClaimValue) (r : String)
    (h : toStringClaim v = some r) : r ≠ "" := by
  match v with
  | .str s =>
    rw [toStringClaim] at h
    split_ifs at h with hs
    all_goals
      first
        | exact Option.noConfusion h
        | (obtain rfl := Option.some.inj h; exact hs)
  | .num _ => exact Option.noConfusion h
  | .boolean _ => exact Option.noConfusion h
  | .arr _ => exact Option.noConfusion h
  | .null => exact Option.noConfusion h

theorem extractContextFromJwt_verified (verify : String → Option DecodedJwt)
    (secret auth tok : String) (dj : DecodedJwt) (hauth : auth ≠ "")
    (hparse : parseBearer auth = some tok) (hsecret : secret ≠ "")
    (hverify : verify tok = some dj) :
    extractContextFromJwt verify secret auth = .ok (decodedToContext dj) := by
  simp only [extractContextFromJwt, if_neg hauth, hparse, if_neg hsecret, hverify]

theorem extractContextFromJwt_error_shape (verify : String → Option DecodedJwt)
    (secret auth : String) (e : GatewayError)
    (h : extractContextFromJwt verify secret auth = .error e) :
    (∃ m, e = .unauthorized m) ∨ (∃ m, e = .internalServerError m) := by
  by_cases ha : auth = ""
  · rw [extractContextFromJwt, if_pos ha] at h
    exact Except.noConfusion h
  · rw [extractContextFromJwt, if_neg ha] at h
    cases hp : parseBearer auth with
    | none =>
      simp only [hp] at h
      exact Or.inl ⟨_, (Except.error.inj h).symm⟩
    | some tok =>
      simp only [hp] at h
      by_cases hs : secret = ""
      · rw [if_pos hs] at h
        exact Or.inr ⟨_, (Except.error.inj h).symm⟩
      · rw [if_neg hs] at h
        cases hv : verify tok with
        | some dj =>
          simp only [hv] at h
          exact Except.noConfusion h
        | none =>
          simp only [hv] at h
          exact Or.inl ⟨_, (Except.error.inj h).symm⟩

theorem resolveStoreId_error_shape (role : String) (req : Int) (j : JwtContext)
    (e : GatewayError) (h : resolveStoreId role req j = .error e) :
    (∃ m, e = .badRequest m) ∨ (∃ m, e = .forbidden m) := by
  simp only [resolveStoreId] at h
  split_ifs at h
  all_goals first
    | exact Except.noConfusion h
    | exact Or.inl ⟨_, (Except.error.inj h).symm⟩
    | exact Or.inr ⟨_, (Except.error.inj h).symm⟩

theorem postWithSingleRetry_error_source (p1 p2 : PostOutcome) (e : DownstreamError)
    (h : (postWithSingleRetry p1 p2).1 = .error e) : p1 = .err e ∨ p2 = .err e := by
  match p1 with
  | .ok d =>
    simp only [postWithSingleRetry] at h
    exact Except.noConfusion h
  | .err e1 =>
    simp only [postWithSingleRetry] at h
    split_ifs at h with hr
    · match p2 with
      | .ok d =>
        simp only at h
        exact Except.noConfusion h
      | .err e2 =>
        simp only at h
        exact Or.inr (congrArg PostOutcome.err (Except.error.inj h))
    · simp only at h
      exact Or.inl (congrArg PostOutcome.err (Except.error.inj h))

theorem mapAgnoError_shape (e : DownstreamError) (s : Nat) (d : String)
    (heq : mapAgnoError e = (s, d))
    (h2xx : ∀ r, e.response = some r → ¬(200 ≤ r.status ∧ r.status ≤ 299)) :
    ¬(200 ≤ s ∧ s ≤ 299) ∧
    (d = "Agno service error." ∨ d = "Agno service timeout." ∨
     d = "Failed to reach Agno service." ∨
     ∃ r, e.response = some r ∧ r.detail = some d) := by
  cases hresp : e.response with
  | some r =>
    have h2 := h2xx r hresp
    simp only [mapAgnoError, hresp] at heq
    obtain ⟨hs, hd⟩ := Prod.mk.inj heq
    constructor
    · by_cases h0 : r.status = 0
      · rw [if_pos h0] at hs
        omega
      · rw [if_neg h0] at hs
        subst hs
        exact h2
    · cases hdet : r.detail with
      | some dd =>
        rw [hdet, Option.getD_some] at hd
        subst hd
        exact Or.inr (Or.inr (Or.inr ⟨r, rfl, hdet⟩))
      | none =>
        rw [hdet, Option.getD_none] at hd
        exact Or.inl hd.symm
  | none =>
    simp only [mapAgnoError, hresp] at heq
    by_cases hc : e.code = some "ECONNABORTED"
    · rw [if_pos hc] at heq
      obtain ⟨hs, hd⟩ := Prod.mk.inj heq
      exact ⟨by omega, Or.inr (Or.inl hd.symm)⟩
    · rw [if_neg hc] at heq
      obtain ⟨hs, hd⟩ := Prod.mk.inj heq
      exact ⟨by omega, Or.inr (Or.inr (Or.inl hd.symm))⟩

/-! ## Claim C6: downstream failures surface as a sanitized detail body -/

/-- C6: when forwardToAgno fails at the downstream call — the only path
raising the generic HttpException with a `{ detail }` body — the caller
receives a non-2xx status and a string detail that is the downstream detail
or one of the fixed messages (Agno service error. / Agno service timeout. /
Failed to reach Agno service.), never the raw downstream error object.  The
hypothesis on the oracles reflects axios semantics: an error carrying a
response always carries a non-2xx status. -/
theorem forwardToAgno_failure_detail (cfg : GatewayConfig)
    (verify : String → Option DecodedJwt) (p1 p2 : PostOutcome)
    (body : ChatRequestBody) (auth : String) (s : Nat) (d : String)
    (hres : (forwardToAgno cfg verify p1 p2 body auth).1 = .error (.http s d))
    (h2xx : ∀ e r, (p1 = .err e ∨ p2 = .err e) → e.response = some r →
      ¬(200 ≤ r.status ∧ r.status ≤ 299)) :
    ¬(200 ≤ s ∧ s ≤ 299) ∧
    (d = "Agno service error." ∨ d = "Agno service timeout." ∨
     d = "Failed to reach Agno service." ∨
     ∃ e r, (p1 = .err e ∨ p2 = .err e) ∧ e.response = some r ∧ r.detail = some d) := by
  by_cases ht : cfg.internalToken = ""
  · simp only [forwardToAgno, if_pos ht] at hres
    exact GatewayError.noConfusion (Except.error.inj hres)
  · cases hex : extractContextFromJwt verify cfg.jwtSecret auth with
    | error e =>
      simp only [forwardToAgno, if_neg ht, hex] at hres
      obtain rfl := Except.error.inj hres
      rcases extractContextFromJwt_error_shape _ _ _ _ hex with ⟨m, hm⟩ | ⟨m, hm⟩ <;>
        exact GatewayError.noConfusion hm
    | ok jwtCtx =>
      simp only [forwardToAgno, if_neg ht, hex] at hres
      cases hro : jsOrStr jwtCtx.role body.role with
      | none =>
        simp only [hro] at hres
        exact GatewayError.noConfusion (Except.error.inj hres)
      | some role =>
        simp only [hro] at hres
        by_cases hre : role = ""
        · rw [if_pos hre] at hres
          exact GatewayError.noConfusion (Except.error.inj hres)
        · rw [if_neg hre] at hres
          by_cases hrv : role ∉ validRoles
          · rw [if_pos hrv] at hres
            exact GatewayError.noConfusion (Except.error.inj hres)
          · rw [if_neg hrv] at hres
            cases hrs : resolveStoreId role (body.store_id.getD 0) jwtCtx with
            | error e =>
              simp only [hrs] at hres
              obtain rfl := Except.error.inj hres
              rcases resolveStoreId_error_shape _ _ _ _ hrs with ⟨m, hm⟩ | ⟨m, hm⟩ <;>
                exact GatewayError.noConfusion hm
            | ok storeId =>
              simp only [hrs] at hres
              cases hpost : (postWithSingleRetry p1 p2).1 with
              | ok dd =>
                simp only [hpost] at hres
                exact Except.noConfusion hres
              | error e =>
                simp only [hpost] at hres
                obtain ⟨hs, hd⟩ := GatewayError.http.inj (Except.error.inj hres)
                have hsrc := postWithSingleRetry_error_source p1 p2 e hpost
                have hmap : mapAgnoError e = (s, d) := Prod.ext hs hd
                obtain ⟨hst, hdet⟩ := mapAgnoError_shape e s d hmap
                  (fun r hr => h2xx e r hsrc hr)
                refine ⟨hst, ?_⟩
                rcases hdet with h | h | h | ⟨r, hr1, hr2⟩
                · exact Or.inl h
                · exact Or.inr (Or.inl h)
                · exact Or.inr (Or.inr (Or.inl h))
                · exact Or.inr (Or.inr (Or.inr ⟨e, r, hsrc, hr1, hr2⟩))

/-- Witness for C6: both POSTs fail, the second with a 500 response carrying
no detail; the caller sees 500 with the fixed fallback detail. -/
theorem forwardToAgno_failure_detail_witness :
    ¬(200 ≤ 500 ∧ 500 ≤ 299) ∧
    ("Agno service error." = "Agno service error." ∨
     "Agno service error." = "Agno service timeout." ∨
     "Agno service error." = "Failed to reach Agno service." ∨
     ∃ e r, ((PostOutcome.err ⟨some ⟨503, some "boom"⟩, none⟩) = .err e ∨
        (PostOutcome.err ⟨some ⟨500, none⟩, none⟩) = .err e) ∧
       e.response = some r ∧ r.detail = some "Agno service error.") :=
  forwardToAgno_failure_detail cfgFix (verifyFix djAdmin)
    (.err ⟨some ⟨503, some "boom"⟩, none⟩) (.err ⟨some ⟨500, none⟩, none⟩)
    bodyFix "Bearer tok" 500 "Agno service error." (by decide)
    (by
      intro e r hor hr
      rcases hor with h | h <;> cases h <;> cases hr <;> decide)

/-! ## Claim C7: store-scoped roles and positive store ids -/

/-- C7 counterexample: a store_manager request whose verified JWT grants
all-stores access and names no store id: forwardToAgno does not throw and
forwards a user_context whose store_id is 0, not strictly positive. -/
theorem resolveStoreId_scoped_positive_counterexample :
    (forwardToAgno cfgFix (verifyFix djAllStores) (.ok "D") (.ok "D") bodyFix "Bearer tok").1 =
      .ok ⟨"D", "uuid-1"⟩ ∧
    (forwardToAgno cfgFix (verifyFix djAllStores) (.ok "D") (.ok "D") bodyFix "Bearer tok").2 =
      [.post rbAllStores, .storeSet "uuid-1"] ∧
    rbAllStores.user_context.store_id = 0 ∧
    rbAllStores.user_context.role ∈ scopedRoles :=
  ⟨by decide, by decide, by decide, by decide⟩

/-- C7 (amended): for a request whose effective role is store_manager,
marketing or finance, resolveStoreId either throws or returns a strictly
positive store id, except when the verified JWT context grants all-stores
access or the returned (nonpositive) id comes from the JWT's own store_ids
list. -/
theorem resolveStoreId_scoped_positive (role : String) (requested : Int)
    (j : JwtContext) (sid : Int) (hrole : role ∈ scopedRoles)
    (hok : resolveStoreId role requested j = .ok sid) :
    0 < sid ∨ j.is_all_stores = some true ∨ ∃ l, j.store_ids = some l ∧ sid ∈ l := by
  have hadmin : role ≠ "admin" := by
    intro heq
    subst heq
    exact absurd hrole (by decide)
  simp only [resolveStoreId] at hok
  by_cases h1 : ((j.role.isSome : Prop) ∨ (j.user_id.isSome : Prop) ∨ (j.store_ids.isSome : Prop))
  · rw [if_neg (not_not_intro h1)] at hok
    by_cases h3 : (j.is_all_stores = some true ∨ role = "admin")
    · rw [if_pos h3] at hok
      have hall : j.is_all_stores = some true := by
        rcases h3 with h | h
        · exact h
        · exact absurd h hadmin
      exact Or.inr (Or.inl hall)
    · rw [if_neg h3] at hok
      by_cases h4 : (j.store_ids.getD []) = []
      · rw [if_pos h4] at hok
        exact Except.noConfusion hok
      · rw [if_neg h4] at hok
        by_cases h5 : (0 < requested ∧ requested ∉ j.store_ids.getD [])
        · rw [if_pos h5] at hok
          exact Except.noConfusion hok
        · rw [if_neg h5] at hok
          obtain rfl := Except.ok.inj hok
          by_cases hq : 0 < requested
          · rw [if_pos hq]
            exact Or.inl hq
          · rw [if_neg hq]
            refine Or.inr (Or.inr ?_)
            cases hs : j.store_ids with
            | none =>
              rw [hs] at h4
              simp at h4
            | some l =>
              rw [hs] at h4
              simp only [Option.getD_some] at h4 ⊢
              cases l with
              | nil => exact absurd rfl h4
              | cons a l2 => exact ⟨a :: l2, rfl, by simp [List.headD]⟩
  · rw [if_pos h1] at hok
    by_cases h2 : (role ∈ scopedRoles ∧ j.store_id.getD requested ≤ 0)
    · rw [if_pos h2] at hok
      exact Except.noConfusion hok
    · rw [if_neg h2] at hok
      obtain rfl := Except.ok.inj hok
      push_neg at h2
      exact Or.inl (by have := h2 hrole; omega)

/-- Witness for C7 (amended): a finance request with a matching scoped JWT. -/
theorem resolveStoreId_scoped_positive_witness :
    0 < (3 : Int) ∨
    ({ role := some "finance", store_ids := some [3] } : JwtContext).is_all_stores =
      some true ∨
    ∃ l, ({ role := some "finance", store_ids := some [3] } : JwtContext).store_ids =
      some l ∧ (3 : Int) ∈ l :=
  resolveStoreId_scoped_positive "finance" 3
    { role := some "finance", store_ids := some [3] } 3 (by decide) (by decide)

/-! ## Claim C9: JWT role precedence over the body role -/

/-- C9: when the Authorization header carries a JWT that verifies and whose
role claim converts to a string, the whole gateway run — in particular the
forwarded user_context — is independent of body.role; and a present but
unverifiable JWT (malformed header or rejected token) always raises
UnauthorizedException with no effects, never falling back to body values. -/
theorem forwardToAgno_jwt_role_precedence :
    (∀ (cfg : GatewayConfig) (verify : String → Option DecodedJwt) (p1 p2 : PostOutcome)
      (b : ChatRequestBody) (auth tok : String) (dj : DecodedJwt) (r : String)
      (br1 br2 : Option String),
      auth ≠ "" → parseBearer auth = some tok → cfg.jwtSecret ≠ "" →
      verify tok = some dj → toStringClaim dj.role = some r →
      forwardToAgno cfg verify p1 p2 { b with role := br1 } auth =
        forwardToAgno cfg verify p1 p2 { b with role := br2 } auth) ∧
    (∀ (cfg : GatewayConfig) (verify : String → Option DecodedJwt) (p1 p2 : PostOutcome)
      (b : ChatRequestBody) (auth : String),
      cfg.internalToken ≠ "" → auth ≠ "" → cfg.jwtSecret ≠ "" →
      (parseBearer auth = none ∨ ∃ tok, parseBearer auth = some tok ∧ verify tok = none) →
      ∃ m, forwardToAgno cfg verify p1 p2 b auth = (.error (.unauthorized m), [])) := by
  constructor
  · intro cfg verify p1 p2 b auth tok dj r br1 br2 hauth hparse hsecret hverify hrole
    have hex := extractContextFromJwt_verified verify cfg.jwtSecret auth tok dj
      hauth hparse hsecret hverify
    have hne : r ≠ "" := toStringClaim_ne_empty _ _ hrole
    have hctx : (decodedToContext dj).role = some r := by
      simp [decodedToContext, hrole]
    by_cases ht : cfg.internalToken = ""
    · simp only [forwardToAgno, if_pos ht]
    · simp only [forwardToAgno, if_neg ht, hex, hctx, jsOrStr, if_neg hne]
  · intro cfg verify p1 p2 b auth hitok hauth hsecret hbad
    rcases hbad with hnone | ⟨tok, hparse, hver⟩
    · refine ⟨"Invalid Authorization header format.", ?_⟩
      have hex : extractContextFromJwt verify cfg.jwtSecret auth =
          .error (.unauthorized "Invalid Authorization header format.") := by
        simp only [extractContextFromJwt, if_neg hauth, hnone]
      simp only [forwardToAgno, if_neg hitok, hex]
    · refine ⟨"Invalid JWT token.", ?_⟩
      have hex : extractContextFromJwt verify cfg.jwtSecret auth =
          .error (.unauthorized "Invalid JWT token.") := by
        simp only [extractContextFromJwt, if_neg hauth, hparse, if_neg hsecret, hver]
      simp only [forwardToAgno, if_neg hitok, hex]

/-- Witness for C9: an admin JWT with two bodies differing only in role, and
a rejected token. -/
theorem forwardToAgno_jwt_role_precedence_witness :
    forwardToAgno cfgFix (verifyFix djAdmin) (.ok "D") (.ok "D")
        { bodyFix with role := some "finance" } "Bearer tok" =
      forwardToAgno cfgFix (verifyFix djAdmin) (.ok "D") (.ok "D")
        { bodyFix with role := none } "Bearer tok" ∧
    ∃ m, forwardToAgno cfgFix (verifyFix djAdmin) (.ok "D") (.ok "D") bodyFix "Bearer bad" =
      (.error (.unauthorized m), []) :=
  ⟨forwardToAgno_jwt_role_precedence.1 cfgFix (verifyFix djAdmin) (.ok "D") (.ok "D")
      bodyFix "Bearer tok" "tok" djAdmin "admin" (some "finance") none
      (by decide) (by decide) (by decide) rfl (by decide),
   forwardToAgno_jwt_role_precedence.2 cfgFix (verifyFix djAdmin) (.ok "D") (.ok "D")
      bodyFix "Bearer bad" (by decide) (by decide) (by decide)
      (Or.inr ⟨"bad", by decide, rfl⟩)⟩

/-! ## Claim C10: store-scope rejection happens before any forwarding -/

/-- C10: for a verified JWT context that is neither admin nor all-stores, if
its store_ids list is empty, or the requested store id is positive and
outside that list, forwardToAgno throws ForbiddenException with an empty
effect trace: no POST to the internal /run service and no result-store
write. -/
theorem forwardToAgno_store_scope_forbidden (cfg : GatewayConfig)
    (verify : String → Option DecodedJwt) (p1 p2 : PostOutcome)
    (b : ChatRequestBody) (auth tok : String) (dj : DecodedJwt) (r : String)
    (l : List Int)
    (hitok : cfg.internalToken ≠ "") (hauth : auth ≠ "") (hsecret : cfg.jwtSecret ≠ "")
    (hparse : parseBearer auth = some tok) (hverify : verify tok = some dj)
    (hrole : jsOrStr (decodedToContext dj).role b.role = some r)
    (hvalid : r ∈ validRoles) (hnadmin : r ≠ "admin")
    (hnall : (decodedToContext dj).is_all_stores ≠ some true)
    (hsids : (decodedToContext dj).store_ids = some l)
    (hscope : l = [] ∨ (0 < b.store_id.getD 0 ∧ b.store_id.getD 0 ∉ l)) :
    ∃ m, forwardToAgno cfg verify p1 p2 b auth = (.error (.forbidden m), []) := by
  have hex := extractContextFromJwt_verified verify cfg.jwtSecret auth tok dj
    hauth hparse hsecret hverify
  have hne : r ≠ "" := by
    intro h
    subst h
    exact absurd hvalid (by decide)
  have hres : ∃ m, resolveStoreId r (b.store_id.getD 0) (decodedToContext dj) =
      .error (.forbidden m) := by
    have hscopeb : ((decodedToContext dj).role.isSome ∨
        (decodedToContext dj).user_id.isSome ∨
        (decodedToContext dj).store_ids.isSome) :=
      Or.inr (Or.inr (by rw [hsids]; rfl))
    have hcond : ¬((decodedToContext dj).is_all_stores = some true ∨ r = "admin") := by
      rintro (h | h)
      · exact hnall h
      · exact hnadmin h
    simp only [resolveStoreId]
    rw [if_neg (not_not_intro hscopeb), if_neg hcond, hsids]
    simp only [Option.getD_some]
    rcases hscope with rfl | ⟨hpos, hnmem⟩
    · rw [if_pos rfl]
      exact ⟨_, rfl⟩
    · by_cases hl : l = []
      · rw [if_pos hl]
        exact ⟨_, rfl⟩
      · rw [if_neg hl, if_pos ⟨hpos, hnmem⟩]
        exact ⟨_, rfl⟩
  obtain ⟨m, hm⟩ := hres
  refine ⟨m, ?_⟩
  simp only [forwardToAgno, if_neg hitok, hex, hrole, if_neg hne,
    if_neg (not_not_intro hvalid), hm]

/-- Witness for C10: a finance body role with a verified JWT carrying an
empty store_ids array. -/
theorem forwardToAgno_store_scope_forbidden_witness :
    ∃ m, forwardToAgno cfgFix (verifyFix djNoStores) (.ok "D") (.ok "D")
      { bodyFix with role := some "finance" } "Bearer tok" =
        (.error (.forbidden m), []) :=
  forwardToAgno_store_scope_forbidden cfgFix (verifyFix djNoStores) (.ok "D") (.ok "D")
    { bodyFix with role := some "finance" } "Bearer tok" "tok" djNoStores "finance" []
    (by decide) (by decide) (by decide) (by decide) rfl (by decide) (by decide)
    (by decide) (by decide) (by decide) (Or.inl rfl)

end AiAnalytics
